import Mathlib

/-!
# GameplayDemo character: movement-augmentation state machine

A shallow embedding of `Source/GameplayDemo/GameplayDemoCharacter.cpp`:
multi-jump, directional dash with stop/cooldown timers, and the grapple hook.

Scalars (`float` in the source) are taken in an arbitrary linearly ordered
field `K`, so that every definition can be evaluated over `ℚ` and every
theorem also holds over `ℝ`.  The engine's numeric primitives (inverse square
root, sine/cosine) are collected in `Engine`; the engine's world queries
(camera direction, actor location, sphere trace) in `World`.
-/

namespace GameplayDemo

variable {K : Type} [LinearOrderedField K]

/-! ## Vectors (`Math/Vector.h`) -/

/-- Three-component vector, the engine's `FVector`. -/
@[ext]
structure FVector (K : Type) where
  X : K
  Y : K
  Z : K
deriving DecidableEq

instance : Zero (FVector K) := ⟨⟨0, 0, 0⟩⟩

instance : Add (FVector K) := ⟨fun a b => ⟨a.X + b.X, a.Y + b.Y, a.Z + b.Z⟩⟩

instance : Sub (FVector K) := ⟨fun a b => ⟨a.X - b.X, a.Y - b.Y, a.Z - b.Z⟩⟩

instance : Neg (FVector K) := ⟨fun a => ⟨-a.X, -a.Y, -a.Z⟩⟩

/-- The product `FVector * float`. -/
instance : HMul (FVector K) K (FVector K) := ⟨fun a k => ⟨a.X * k, a.Y * k, a.Z * k⟩⟩

/-- The product `float * FVector`. -/
instance : HMul K (FVector K) (FVector K) := ⟨fun k a => ⟨k * a.X, k * a.Y, k * a.Z⟩⟩

/-- The constructor `FVector(float InF)`: all three components are `InF`. -/
def FVector.ofScalar (InF : K) : FVector K := ⟨InF, InF, InF⟩

/-- The static `FVector::DotProduct`. -/
def FVector.DotProduct (A B : FVector K) : K := A.X * B.X + A.Y * B.Y + A.Z * B.Z

/-- The method `FVector::SizeSquared`: the squared length. -/
def FVector.SizeSquared (V : FVector K) : K := V.X * V.X + V.Y * V.Y + V.Z * V.Z

/-- Numeric primitives of the engine's math library that the vector methods
call.  `SinCos` takes its angle in degrees and returns `(sin, cos)`. -/
structure Engine (K : Type) where
  InvSqrt : K → K
  SinCos : K → K × K
  SMALL_NUMBER : K

/-- The method `FVector::GetSafeNormal` with its default tolerance: a vector of
squared length one is returned as is, one of squared length below the tolerance
gives the zero vector, any other is scaled by the inverse square root. -/
def FVector.GetSafeNormal (E : Engine K) (V : FVector K) : FVector K :=
  let SquareSum := V.X * V.X + V.Y * V.Y + V.Z * V.Z
  if SquareSum = 1 then V
  else if SquareSum < E.SMALL_NUMBER then 0
  else
    let Scale := E.InvSqrt SquareSum
    ⟨V.X * Scale, V.Y * Scale, V.Z * Scale⟩

/-- The method `FVector::RotateAngleAxis`: rotation by `AngleDeg` degrees about
the (unit) vector `Axis`. -/
def FVector.RotateAngleAxis (E : Engine K) (AngleDeg : K) (Axis V : FVector K) : FVector K :=
  let S := (E.SinCos AngleDeg).1
  let C := (E.SinCos AngleDeg).2
  let XX := Axis.X * Axis.X
  let YY := Axis.Y * Axis.Y
  let ZZ := Axis.Z * Axis.Z
  let XY := Axis.X * Axis.Y
  let YZ := Axis.Y * Axis.Z
  let ZX := Axis.Z * Axis.X
  let XS := Axis.X * S
  let YS := Axis.Y * S
  let ZS := Axis.Z * S
  let OMC := 1 - C
  ⟨(OMC * XX + C) * V.X + (OMC * XY - ZS) * V.Y + (OMC * ZX + YS) * V.Z,
   (OMC * XY + ZS) * V.X + (OMC * YY + C) * V.Y + (OMC * YZ - XS) * V.Z,
   (OMC * ZX - YS) * V.X + (OMC * YZ + XS) * V.Y + (OMC * ZZ + C) * V.Z⟩

/-! ## Character state -/

/-- The two member functions that are bound to the timer handle. -/
inductive TimerCallback where
  | StopDash
  | ResetDash
deriving DecidableEq

/-- One call of `ACharacter::LaunchCharacter`, with its three arguments. -/
structure LaunchCall (K : Type) where
  LaunchVelocity : FVector K
  bXYOverride : Bool
  bZOverride : Bool
deriving DecidableEq

/-- What the character reads from the engine when an input event arrives: the
camera's forward vector, the actor location, and the world's answer to
`SphereTraceSingleForObjects start end radius` (the impact point on a hit). -/
structure World (K : Type) where
  CameraForward : FVector K
  ActorLocation : FVector K
  SphereTrace : FVector K → FVector K → K → Option (FVector K)

/-- The fields of `AGameplayDemoCharacter` that the movement code reads and
writes, followed by the engine-side state it acts on: the movement component
(`Velocity`, `MaxWalkSpeed`, `BrakingFrictionFactor`), the cable's
`bHiddenInGame` flag, the timer pending on `UnusedHandle` (callback and
remaining seconds), the `LaunchCharacter` calls issued so far (newest first)
and the callbacks that a re-arm of the handle replaced before they fired. -/
structure Character (K : Type) where
  JumpHeight : K
  WalkSpeed : K
  SprintSpeed : K
  JumpLimit : Int
  JumpCounter : Int
  CanDash : Bool
  DashDistance : K
  DashCooldown : K
  DashStop : K
  GrappleConnected : Bool
  GrappleDistance : K
  GrappleRadius : K
  GrappleForce : FVector K
  GrappleBoost : K
  Velocity : FVector K
  MaxWalkSpeed : K
  BrakingFrictionFactor : K
  CableHiddenInGame : Bool
  UnusedHandle : Option (TimerCallback × K)
  Launches : List (LaunchCall K)
  Discarded : List TimerCallback
deriving DecidableEq

/-- The constructor `AGameplayDemoCharacter::AGameplayDemoCharacter`.  The two
jump fields are not assigned by it and are taken as arguments; the movement
component starts at rest with the engine's default braking friction factor,
and no timer is pending. -/
def AGameplayDemoCharacter (JumpLimit JumpCounter : Int) : Character K where
  JumpHeight := 600
  WalkSpeed := 600
  SprintSpeed := 1000
  JumpLimit := JumpLimit
  JumpCounter := JumpCounter
  CanDash := true
  DashDistance := 6000
  DashCooldown := 1
  DashStop := 1 / 10
  GrappleConnected := false
  GrappleDistance := 6000
  GrappleRadius := 20
  GrappleForce := ⟨0, 0, 0⟩
  GrappleBoost := 1000
  Velocity := 0
  MaxWalkSpeed := 600
  BrakingFrictionFactor := 2
  CableHiddenInGame := true
  UnusedHandle := none
  Launches := []
  Discarded := []

/-! ## Engine calls made by the character -/

/-- The call `LaunchCharacter(LaunchVelocity, bXYOverride, bZOverride)`: the
request is handed to the movement component; it is recorded here. -/
def LaunchCharacter (LaunchVelocity : FVector K) (bXYOverride bZOverride : Bool)
    (s : Character K) : Character K :=
  { s with Launches := ⟨LaunchVelocity, bXYOverride, bZOverride⟩ :: s.Launches }

/-- The call `GetCharacterMovement()->StopMovementImmediately()`: the velocity
becomes zero. -/
def StopMovementImmediately (s : Character K) : Character K :=
  { s with Velocity := 0 }

/-- Modelled from the spec: the engine's timer manager is not part of the
sources; section 4.1 gives its contract.  `SetTimer(UnusedHandle, this, cb,
rate, false)` arms the handle with `cb` due after `rate` seconds; a callback
still pending on the handle is replaced, discarded without firing. -/
def SetTimer (cb : TimerCallback) (rate : K) (s : Character K) : Character K :=
  { s with
    UnusedHandle := some (cb, rate)
    Discarded :=
      match s.UnusedHandle with
      | some (old, _) => old :: s.Discarded
      | none => s.Discarded }

/-- The call `Cable->SetHiddenInGame(NewHidden)`. -/
def SetHiddenInGame (NewHidden : Bool) (s : Character K) : Character K :=
  { s with CableHiddenInGame := NewHidden }

/-! ## Member functions of `AGameplayDemoCharacter` -/

/-- `AGameplayDemoCharacter::Tick`. -/
def Tick (_DeltaSeconds : K) (s : Character K) : Character K :=
  if s.GrappleConnected then
    { s with Velocity := s.Velocity + s.GrappleForce }
  else s

/-- The free function `CalculateGrappleForce`: three temporaries are computed
and the constant `0.0f` is returned. -/
def CalculateGrappleForce (E : Engine K) (hookPoint velocity currentLocation : FVector K) : K :=
  let temp := currentLocation - hookPoint
  let temp2 := FVector.DotProduct temp velocity
  let _temp3 := (-2 : K) * FVector.GetSafeNormal E temp * temp2
  0

/-- `AGameplayDemoCharacter::OnGrapple`.  The impact point of the trace is
handed to `CalculateGrappleForce` as it is. -/
def OnGrapple (E : Engine K) (W : World K) (s : Character K) : Character K :=
  if s.GrappleConnected then
    let s1 := { s with GrappleConnected := false }
    SetHiddenInGame s1.GrappleConnected s1
  else
    let direction := FVector.GetSafeNormal E W.CameraForward * s.GrappleDistance
    let startPoint := W.ActorLocation
    match W.SphereTrace startPoint (startPoint + direction) s.GrappleRadius with
    | some impactPoint =>
      let s1 := { s with GrappleConnected := true }
      let s2 := SetHiddenInGame s1.GrappleConnected s1
      { s2 with
        GrappleForce :=
          FVector.ofScalar (CalculateGrappleForce E impactPoint s2.Velocity W.ActorLocation)
            + FVector.GetSafeNormal E W.CameraForward * s2.GrappleBoost }
    | none => s

/-- `AGameplayDemoCharacter::Landed` (the hit result is not used). -/
def Landed (s : Character K) : Character K :=
  { s with JumpCounter := 0 }

/-- `AGameplayDemoCharacter::MultipleJump`.  The increment cannot overflow:
it runs only below `JumpLimit`. -/
def MultipleJump (s : Character K) : Character K :=
  if s.JumpCounter < s.JumpLimit then
    let s1 := LaunchCharacter ⟨0, 0, s.JumpHeight⟩ false true s
    { s1 with JumpCounter := s1.JumpCounter + 1 }
  else s

/-- `AGameplayDemoCharacter::Sprint`. -/
def Sprint (s : Character K) : Character K :=
  { s with MaxWalkSpeed := s.SprintSpeed }

/-- `AGameplayDemoCharacter::Walk`. -/
def Walk (s : Character K) : Character K :=
  { s with MaxWalkSpeed := s.WalkSpeed }

/-- `AGameplayDemoCharacter::DashForward`. -/
def DashForward (E : Engine K) (W : World K) (s : Character K) : Character K :=
  if s.CanDash then
    let s1 := { s with BrakingFrictionFactor := 0 }
    let s2 := LaunchCharacter
      (FVector.GetSafeNormal E ⟨W.CameraForward.X, W.CameraForward.Y, 0⟩ * s1.DashDistance)
      true true s1
    let s3 := { s2 with CanDash := false }
    SetTimer TimerCallback.StopDash s3.DashStop s3
  else s

/-- `AGameplayDemoCharacter::DashLeft`. -/
def DashLeft (E : Engine K) (W : World K) (s : Character K) : Character K :=
  if s.CanDash then
    let s1 := { s with BrakingFrictionFactor := 0 }
    let s2 := LaunchCharacter
      (FVector.GetSafeNormal E
          (FVector.RotateAngleAxis E (-90) ⟨0, 0, 1⟩ ⟨W.CameraForward.X, W.CameraForward.Y, 0⟩)
        * s1.DashDistance)
      true true s1
    let s3 := { s2 with CanDash := false }
    SetTimer TimerCallback.StopDash s3.DashStop s3
  else s

/-- `AGameplayDemoCharacter::DashRight`. -/
def DashRight (E : Engine K) (W : World K) (s : Character K) : Character K :=
  if s.CanDash then
    let s1 := { s with BrakingFrictionFactor := 0 }
    let s2 := LaunchCharacter
      (FVector.GetSafeNormal E
          (FVector.RotateAngleAxis E 90 ⟨0, 0, 1⟩ ⟨W.CameraForward.X, W.CameraForward.Y, 0⟩)
        * s1.DashDistance)
      true true s1
    let s3 := { s2 with CanDash := false }
    SetTimer TimerCallback.StopDash s3.DashStop s3
  else s

/-- `AGameplayDemoCharacter::DashBack`. -/
def DashBack (E : Engine K) (W : World K) (s : Character K) : Character K :=
  if s.CanDash then
    let s1 := { s with BrakingFrictionFactor := 0 }
    let s2 := LaunchCharacter
      (FVector.GetSafeNormal E
          (FVector.RotateAngleAxis E 180 ⟨0, 0, 1⟩ ⟨W.CameraForward.X, W.CameraForward.Y, 0⟩)
        * s1.DashDistance)
      true true s1
    let s3 := { s2 with CanDash := false }
    SetTimer TimerCallback.StopDash s3.DashStop s3
  else s

/-- `AGameplayDemoCharacter::StopDash`. -/
def StopDash (s : Character K) : Character K :=
  let s1 := StopMovementImmediately s
  let s2 := SetTimer TimerCallback.ResetDash s1.DashCooldown s1
  { s2 with BrakingFrictionFactor := 2 }

/-- `AGameplayDemoCharacter::ResetDash`. -/
def ResetDash (s : Character K) : Character K :=
  { s with CanDash := true }

/-! ## Timer manager and input dispatch -/

/-- Running the member function a timer is bound to. -/
def fire (cb : TimerCallback) (s : Character K) : Character K :=
  match cb with
  | TimerCallback.StopDash => StopDash s
  | TimerCallback.ResetDash => ResetDash s

/-- Modelled from the spec: the engine's timer manager is not part of the
sources; section 4.1 gives its contract.  Simulated time advances by `dt`: a
pending callback whose remaining time has not elapsed keeps the rest; one
whose delay has elapsed leaves the handle and runs once, and the time left
over is passed on to whatever the callback armed.  `fuel` bounds the number
of callbacks run. -/
def advanceTimersFuel : Nat → K → Character K → Character K
  | 0, _, s => s
  | fuel + 1, dt, s =>
    match s.UnusedHandle with
    | none => s
    | some (cb, remaining) =>
      if dt < remaining then
        { s with UnusedHandle := some (cb, remaining - dt) }
      else
        advanceTimersFuel fuel (dt - remaining) (fire cb { s with UnusedHandle := none })

/-- Advancing simulated time by `dt`.  `StopDash` arms `ResetDash` and
`ResetDash` arms nothing, so at most two callbacks run
(`advanceTimersFuel_stable`). -/
def advanceTimers (dt : K) (s : Character K) : Character K :=
  advanceTimersFuel 2 dt s

/-- The four dash actions bound in `SetupPlayerInputComponent`. -/
inductive DashAction where
  | ForwardDash
  | LeftDash
  | RightDash
  | BackDash
deriving DecidableEq

/-- The member function bound to each dash action. -/
def Dash (E : Engine K) (d : DashAction) (W : World K) (s : Character K) : Character K :=
  match d with
  | DashAction.ForwardDash => DashForward E W s
  | DashAction.LeftDash => DashLeft E W s
  | DashAction.RightDash => DashRight E W s
  | DashAction.BackDash => DashBack E W s

/-- What can happen to the character: an input action, a landing, a frame
tick, or simulated time passing for the timer manager. -/
inductive Event (K : Type) where
  | Jump
  | Landed
  | Sprint
  | Walk
  | ShootGrapple (W : World K)
  | Dash (d : DashAction) (W : World K)
  | Tick (DeltaSeconds : K)
  | AdvanceTimers (dt : K)

/-- The effect of one event. -/
def step (E : Engine K) (s : Character K) : Event K → Character K
  | Event.Jump => MultipleJump s
  | Event.Landed => Landed s
  | Event.Sprint => Sprint s
  | Event.Walk => Walk s
  | Event.ShootGrapple W => OnGrapple E W s
  | Event.Dash d W => Dash E d W s
  | Event.Tick dt => Tick dt s
  | Event.AdvanceTimers dt => advanceTimers dt s

/-- The effect of a sequence of events, oldest first. -/
def run (E : Engine K) (s : Character K) (evs : List (Event K)) : Character K :=
  evs.foldl (step E) s

/-- The sphere trace that `OnGrapple` issues in state `s`: from the actor
location along the normalised camera direction, `GrappleDistance` far, with
radius `GrappleRadius`. -/
def grappleTrace (E : Engine K) (W : World K) (s : Character K) : Option (FVector K) :=
  W.SphereTrace W.ActorLocation
    (W.ActorLocation + FVector.GetSafeNormal E W.CameraForward * s.GrappleDistance)
    s.GrappleRadius

/-- The bounds on the jump counter stated in the data model. -/
def JumpInvariant (s : Character K) : Prop :=
  0 ≤ s.JumpCounter ∧ s.JumpCounter ≤ s.JumpLimit

/-- The horizontal part `(f.x, f.y, 0)` of the camera's forward vector, the
argument of every dash direction. -/
def horizontalForward (W : World K) : FVector K :=
  ⟨W.CameraForward.X, W.CameraForward.Y, 0⟩

/-- The engine's sine and cosine are exact at the three angles the dash
functions pass to `RotateAngleAxis`. -/
def Engine.ExactTrig (E : Engine K) : Prop :=
  E.SinCos 90 = (1, 0) ∧ E.SinCos (-90) = (-1, 0) ∧ E.SinCos 180 = (0, -1)

/-- The engine's inverse square root is exact at `x`. -/
def Engine.ExactInvSqrtAt (E : Engine K) (x : K) : Prop :=
  E.InvSqrt x * E.InvSqrt x * x = 1

/-- The launch velocity `normalize((f.x, f.y, 0)) * DashDistance` of a forward
dash. -/
def forwardLaunch (E : Engine K) (W : World K) (s : Character K) : FVector K :=
  FVector.GetSafeNormal E (horizontalForward W) * s.DashDistance

/-- The consistency of the dash flag with the timer handle: `CanDash` is false
exactly when a callback is pending, no pending callback has been replaced, and
the pending delay and the two configured delays are positive. -/
def DashInvariant (s : Character K) : Prop :=
  (s.CanDash = false ↔ s.UnusedHandle.isSome = true) ∧
  s.Discarded = [] ∧
  (∀ cb r, s.UnusedHandle = some (cb, r) → 0 < r) ∧
  0 < s.DashStop ∧ 0 < s.DashCooldown

/-- The state `t` agrees with `s` on the dash flag, the timer handle and the
dash delays. -/
def SameDash (s t : Character K) : Prop :=
  t.CanDash = s.CanDash ∧ t.UnusedHandle = s.UnusedHandle ∧ t.Discarded = s.Discarded ∧
  t.DashStop = s.DashStop ∧ t.DashCooldown = s.DashCooldown

/-- An engine over `ℚ` whose primitives are exact at the arguments used in the
examples: inverse square roots of 1 and 25, sines and cosines of 0, 90, -90
and 180 degrees. -/
def tableEngine : Engine ℚ where
  InvSqrt := fun x => if x = 25 then 1 / 5 else 1
  SinCos := fun a =>
    if a = 90 then (1, 0)
    else if a = -90 then (-1, 0)
    else if a = 180 then (0, -1)
    else (0, 1)
  SMALL_NUMBER := 1 / 100000000

/-- A world in which the camera looks along `fwd`, the actor stands at the
origin and every sphere trace ends at `hit`. -/
def worldWith (fwd : FVector ℚ) (hit : Option (FVector ℚ)) : World ℚ where
  CameraForward := fwd
  ActorLocation := 0
  SphereTrace := fun _ _ _ => hit

/-! ## Basic facts -/

section Facts

variable {K : Type} [LinearOrderedField K]

theorem FVector.zero_eq : (0 : FVector K) = ⟨0, 0, 0⟩ := rfl

theorem FVector.add_eq (a b : FVector K) :
    a + b = ⟨a.X + b.X, a.Y + b.Y, a.Z + b.Z⟩ := rfl

theorem FVector.sub_eq (a b : FVector K) :
    a - b = ⟨a.X - b.X, a.Y - b.Y, a.Z - b.Z⟩ := rfl

theorem FVector.neg_eq (a : FVector K) : -a = ⟨-a.X, -a.Y, -a.Z⟩ := rfl

theorem FVector.mul_scalar_eq (a : FVector K) (k : K) :
    a * k = ⟨a.X * k, a.Y * k, a.Z * k⟩ := rfl

theorem FVector.scalar_mul_eq (k : K) (a : FVector K) :
    k * a = ⟨k * a.X, k * a.Y, k * a.Z⟩ := rfl

theorem CalculateGrappleForce_eq_zero (E : Engine K) (P v p : FVector K) :
    CalculateGrappleForce E P v p = 0 := rfl

theorem OnGrapple_of_miss (E : Engine K) (W : World K) (s : Character K)
    (hc : s.GrappleConnected = false) (hmiss : grappleTrace E W s = none) :
    OnGrapple E W s = s := by
  unfold grappleTrace at hmiss
  simp [OnGrapple, hc, hmiss]

theorem MultipleJump_JumpLimit (s : Character K) :
    (MultipleJump s).JumpLimit = s.JumpLimit := by
  unfold MultipleJump LaunchCharacter
  split <;> rfl

theorem MultipleJump_JumpHeight (s : Character K) :
    (MultipleJump s).JumpHeight = s.JumpHeight := by
  unfold MultipleJump LaunchCharacter
  split <;> rfl

theorem MultipleJump_of_lt (s : Character K) (h : s.JumpCounter < s.JumpLimit) :
    MultipleJump s =
      { s with
        Launches := ⟨⟨0, 0, s.JumpHeight⟩, false, true⟩ :: s.Launches
        JumpCounter := s.JumpCounter + 1 } := by
  simp [MultipleJump, LaunchCharacter, h]

theorem MultipleJump_of_not_lt (s : Character K) (h : ¬ s.JumpCounter < s.JumpLimit) :
    MultipleJump s = s := by
  simp [MultipleJump, h]

theorem iterate_MultipleJump (s : Character K) (h0 : s.JumpCounter = 0) :
    ∀ k : Nat, (k : Int) ≤ s.JumpLimit →
      (MultipleJump^[k] s).JumpCounter = k ∧
      (MultipleJump^[k] s).JumpLimit = s.JumpLimit ∧
      (MultipleJump^[k] s).JumpHeight = s.JumpHeight := by
  intro k
  induction k with
  | zero => intro _; simp [h0]
  | succ n ih =>
    intro hk
    have hn : (n : Int) < s.JumpLimit := by push_cast at hk; omega
    obtain ⟨hc, hl, hh⟩ := ih (le_of_lt hn)
    rw [Function.iterate_succ_apply', MultipleJump_JumpLimit, MultipleJump_JumpHeight]
    refine ⟨?_, hl, hh⟩
    rw [MultipleJump_of_lt _ (by rw [hc, hl]; exact hn)]
    simp [hc]

theorem Tick_of_connected (dt : K) (s : Character K) (h : s.GrappleConnected = true) :
    Tick dt s = { s with Velocity := s.Velocity + s.GrappleForce } := by
  simp [Tick, h]

theorem Tick_of_not_connected (dt : K) (s : Character K) (h : s.GrappleConnected = false) :
    Tick dt s = s := by
  simp [Tick, h]

theorem foldl_Tick_of_connected (dts : List K) :
    ∀ s : Character K, s.GrappleConnected = true →
      dts.foldl (fun t dt => Tick dt t) s =
        { s with Velocity := s.Velocity + (dts.length : K) * s.GrappleForce } := by
  induction dts with
  | nil =>
    intro s _
    cases s
    simp [FVector.add_eq, FVector.scalar_mul_eq]
  | cons dt rest ih =>
    intro s h
    rw [List.foldl_cons, Tick_of_connected dt s h, ih]
    · cases s
      simp only [List.length_cons, Nat.cast_add, Nat.cast_one, FVector.add_eq,
        FVector.scalar_mul_eq, Character.mk.injEq, FVector.mk.injEq, and_true, true_and]
      refine ⟨?_, ?_, ?_⟩ <;> ring
    · exact h

theorem OnGrapple_of_connected (E : Engine K) (W : World K) (s : Character K)
    (hc : s.GrappleConnected = true) :
    OnGrapple E W s = { s with GrappleConnected := false, CableHiddenInGame := false } := by
  simp [OnGrapple, SetHiddenInGame, hc]

theorem OnGrapple_of_hit (E : Engine K) (W : World K) (s : Character K) (P : FVector K)
    (hc : s.GrappleConnected = false) (hhit : grappleTrace E W s = some P) :
    OnGrapple E W s =
      { s with
        GrappleConnected := true
        CableHiddenInGame := true
        GrappleForce :=
          FVector.ofScalar (CalculateGrappleForce E P s.Velocity W.ActorLocation)
            + FVector.GetSafeNormal E W.CameraForward * s.GrappleBoost } := by
  unfold grappleTrace at hhit
  simp [OnGrapple, SetHiddenInGame, hc, hhit]

theorem foldl_OnGrapple_of_miss (E : Engine K) (Ws : List (World K)) :
    ∀ s : Character K, s.GrappleConnected = false →
      (∀ W ∈ Ws, grappleTrace E W s = none) →
      Ws.foldl (fun t W => OnGrapple E W t) s = s := by
  induction Ws with
  | nil => intro s _ _; rfl
  | cons W rest ih =>
    intro s hc hmiss
    rw [List.foldl_cons, OnGrapple_of_miss E W s hc (hmiss W (List.mem_cons_self _ _))]
    exact ih s hc (fun W2 hW2 => hmiss W2 (List.mem_cons_of_mem _ hW2))

theorem RotateAngleAxis_Z (E : Engine K) (a x y : K) :
    FVector.RotateAngleAxis E a ⟨0, 0, 1⟩ ⟨x, y, 0⟩ =
      ⟨(E.SinCos a).2 * x - (E.SinCos a).1 * y, (E.SinCos a).1 * x + (E.SinCos a).2 * y, 0⟩ := by
  simp only [FVector.RotateAngleAxis, FVector.mk.injEq]
  refine ⟨?_, ?_, ?_⟩ <;> ring

theorem GetSafeNormal_horizontal_Z (E : Engine K) (x y : K) :
    (FVector.GetSafeNormal E ⟨x, y, 0⟩).Z = 0 := by
  unfold FVector.GetSafeNormal
  simp only
  split_ifs <;> simp [FVector.zero_eq]

theorem GetSafeNormal_rot_pos (E : Engine K) (x y : K) :
    FVector.GetSafeNormal E ⟨-y, x, 0⟩ =
      ⟨-(FVector.GetSafeNormal E ⟨x, y, 0⟩).Y, (FVector.GetSafeNormal E ⟨x, y, 0⟩).X, 0⟩ := by
  have hsq : -y * -y + x * x + 0 * 0 = x * x + y * y + 0 * 0 := by ring
  unfold FVector.GetSafeNormal
  simp only [hsq]
  split_ifs
  · rfl
  · ext <;> simp [FVector.zero_eq]
  · ext <;> simp

theorem GetSafeNormal_rot_neg (E : Engine K) (x y : K) :
    FVector.GetSafeNormal E ⟨y, -x, 0⟩ =
      ⟨(FVector.GetSafeNormal E ⟨x, y, 0⟩).Y, -(FVector.GetSafeNormal E ⟨x, y, 0⟩).X, 0⟩ := by
  have hsq : y * y + -x * -x + 0 * 0 = x * x + y * y + 0 * 0 := by ring
  unfold FVector.GetSafeNormal
  simp only [hsq]
  split_ifs
  · rfl
  · ext <;> simp [FVector.zero_eq]
  · ext <;> simp

theorem GetSafeNormal_rot_back (E : Engine K) (x y : K) :
    FVector.GetSafeNormal E ⟨-x, -y, 0⟩ =
      ⟨-(FVector.GetSafeNormal E ⟨x, y, 0⟩).X, -(FVector.GetSafeNormal E ⟨x, y, 0⟩).Y, 0⟩ := by
  have hsq : -x * -x + -y * -y + 0 * 0 = x * x + y * y + 0 * 0 := by ring
  unfold FVector.GetSafeNormal
  simp only [hsq]
  split_ifs
  · rfl
  · ext <;> simp [FVector.zero_eq]
  · ext <;> simp

theorem GetSafeNormal_sizeSquared_of_exact (E : Engine K) (V : FVector K)
    (h : V.SizeSquared = 1 ∨
      (E.SMALL_NUMBER ≤ V.SizeSquared ∧ E.ExactInvSqrtAt V.SizeSquared)) :
    (FVector.GetSafeNormal E V).SizeSquared = 1 := by
  unfold FVector.SizeSquared Engine.ExactInvSqrtAt at h
  unfold FVector.GetSafeNormal
  simp only
  split_ifs with h1 h2
  · exact h1
  · rcases h with h | ⟨h, _⟩
    · exact absurd h h1
    · exact absurd h2 (not_lt.mpr h)
  · rcases h with h | ⟨_, h⟩
    · exact absurd h h1
    · unfold FVector.SizeSquared
      simp only
      rw [← h]
      ring

theorem GetSafeNormal_of_small (E : Engine K) (V : FVector K)
    (h1 : V.SizeSquared ≠ 1) (h2 : V.SizeSquared < E.SMALL_NUMBER) :
    FVector.GetSafeNormal E V = 0 := by
  unfold FVector.SizeSquared at h1 h2
  unfold FVector.GetSafeNormal
  simp [h1, h2]

/-- The state a dash leaves behind when `CanDash` holds and `v` is launched. -/
theorem dashed_eq (s : Character K) (v : FVector K) :
    SetTimer TimerCallback.StopDash s.DashStop
        { s with
          BrakingFrictionFactor := 0
          Launches := ⟨v, true, true⟩ :: s.Launches
          CanDash := false } =
      { s with
        BrakingFrictionFactor := 0
        Launches := ⟨v, true, true⟩ :: s.Launches
        CanDash := false
        UnusedHandle := some (TimerCallback.StopDash, s.DashStop)
        Discarded :=
          match s.UnusedHandle with
          | some (old, _) => old :: s.Discarded
          | none => s.Discarded } := rfl

theorem DashForward_of_ready (E : Engine K) (W : World K) (s : Character K)
    (h : s.CanDash = true) :
    DashForward E W s =
      SetTimer TimerCallback.StopDash s.DashStop
        { s with
          BrakingFrictionFactor := 0
          Launches :=
            ⟨FVector.GetSafeNormal E (horizontalForward W) * s.DashDistance, true, true⟩
              :: s.Launches
          CanDash := false } := by
  simp [DashForward, LaunchCharacter, horizontalForward, h]

theorem DashLeft_of_ready (E : Engine K) (W : World K) (s : Character K)
    (h : s.CanDash = true) :
    DashLeft E W s =
      SetTimer TimerCallback.StopDash s.DashStop
        { s with
          BrakingFrictionFactor := 0
          Launches :=
            ⟨FVector.GetSafeNormal E
                (FVector.RotateAngleAxis E (-90) ⟨0, 0, 1⟩ (horizontalForward W))
              * s.DashDistance, true, true⟩ :: s.Launches
          CanDash := false } := by
  simp [DashLeft, LaunchCharacter, horizontalForward, h]

theorem DashRight_of_ready (E : Engine K) (W : World K) (s : Character K)
    (h : s.CanDash = true) :
    DashRight E W s =
      SetTimer TimerCallback.StopDash s.DashStop
        { s with
          BrakingFrictionFactor := 0
          Launches :=
            ⟨FVector.GetSafeNormal E
                (FVector.RotateAngleAxis E 90 ⟨0, 0, 1⟩ (horizontalForward W))
              * s.DashDistance, true, true⟩ :: s.Launches
          CanDash := false } := by
  simp [DashRight, LaunchCharacter, horizontalForward, h]

theorem DashBack_of_ready (E : Engine K) (W : World K) (s : Character K)
    (h : s.CanDash = true) :
    DashBack E W s =
      SetTimer TimerCallback.StopDash s.DashStop
        { s with
          BrakingFrictionFactor := 0
          Launches :=
            ⟨FVector.GetSafeNormal E
                (FVector.RotateAngleAxis E 180 ⟨0, 0, 1⟩ (horizontalForward W))
              * s.DashDistance, true, true⟩ :: s.Launches
          CanDash := false } := by
  simp [DashBack, LaunchCharacter, horizontalForward, h]

theorem Dash_of_ready (E : Engine K) (d : DashAction) (W : World K) (s : Character K)
    (h : s.CanDash = true) :
    ∃ v : FVector K,
      Dash E d W s =
        SetTimer TimerCallback.StopDash s.DashStop
          { s with
            BrakingFrictionFactor := 0
            Launches := ⟨v, true, true⟩ :: s.Launches
            CanDash := false } := by
  cases d
  · exact ⟨_, DashForward_of_ready E W s h⟩
  · exact ⟨_, DashLeft_of_ready E W s h⟩
  · exact ⟨_, DashRight_of_ready E W s h⟩
  · exact ⟨_, DashBack_of_ready E W s h⟩

theorem left_direction (E : Engine K) (W : World K) (ht : E.ExactTrig) :
    FVector.GetSafeNormal E (FVector.RotateAngleAxis E (-90) ⟨0, 0, 1⟩ (horizontalForward W)) =
      ⟨(FVector.GetSafeNormal E (horizontalForward W)).Y,
       -(FVector.GetSafeNormal E (horizontalForward W)).X, 0⟩ := by
  unfold horizontalForward
  rw [RotateAngleAxis_Z, ht.2.1, ← GetSafeNormal_rot_neg]
  congr 1
  ext <;> simp

theorem right_direction (E : Engine K) (W : World K) (ht : E.ExactTrig) :
    FVector.GetSafeNormal E (FVector.RotateAngleAxis E 90 ⟨0, 0, 1⟩ (horizontalForward W)) =
      ⟨-(FVector.GetSafeNormal E (horizontalForward W)).Y,
       (FVector.GetSafeNormal E (horizontalForward W)).X, 0⟩ := by
  unfold horizontalForward
  rw [RotateAngleAxis_Z, ht.1, ← GetSafeNormal_rot_pos]
  congr 1
  ext <;> simp

theorem back_direction (E : Engine K) (W : World K) (ht : E.ExactTrig) :
    FVector.GetSafeNormal E (FVector.RotateAngleAxis E 180 ⟨0, 0, 1⟩ (horizontalForward W)) =
      ⟨-(FVector.GetSafeNormal E (horizontalForward W)).X,
       -(FVector.GetSafeNormal E (horizontalForward W)).Y, 0⟩ := by
  unfold horizontalForward
  rw [RotateAngleAxis_Z, ht.2.2, ← GetSafeNormal_rot_back]
  congr 1
  ext <;> simp

theorem forwardLaunch_eq (E : Engine K) (W : World K) (s : Character K) :
    forwardLaunch E W s =
      ⟨(FVector.GetSafeNormal E (horizontalForward W)).X * s.DashDistance,
       (FVector.GetSafeNormal E (horizontalForward W)).Y * s.DashDistance, 0⟩ := by
  unfold forwardLaunch
  rw [FVector.mul_scalar_eq]
  have hz : (FVector.GetSafeNormal E (horizontalForward W)).Z = 0 :=
    GetSafeNormal_horizontal_Z E _ _
  rw [hz, zero_mul]

omit [LinearOrderedField K] in
theorem SetTimer_Launches (cb : TimerCallback) (r : K) (s : Character K) :
    (SetTimer cb r s).Launches = s.Launches := rfl

theorem advanceTimersFuel_none (n : Nat) (dt : K) (s : Character K)
    (h : s.UnusedHandle = none) : advanceTimersFuel n dt s = s := by
  cases n with
  | zero => rfl
  | succ m => simp [advanceTimersFuel, h]

theorem advanceTimersFuel_lt (n : Nat) (dt : K) (s : Character K) (cb : TimerCallback) (r : K)
    (h : s.UnusedHandle = some (cb, r)) (hlt : dt < r) :
    advanceTimersFuel (n + 1) dt s = { s with UnusedHandle := some (cb, r - dt) } := by
  simp [advanceTimersFuel, h, hlt]

theorem advanceTimersFuel_ge (n : Nat) (dt : K) (s : Character K) (cb : TimerCallback) (r : K)
    (h : s.UnusedHandle = some (cb, r)) (hge : r ≤ dt) :
    advanceTimersFuel (n + 1) dt s =
      advanceTimersFuel n (dt - r) (fire cb { s with UnusedHandle := none }) := by
  simp [advanceTimersFuel, h, not_lt.mpr hge]

theorem StopDash_cleared (s : Character K) :
    StopDash { s with UnusedHandle := none } =
      { s with
        Velocity := 0
        BrakingFrictionFactor := 2
        UnusedHandle := some (TimerCallback.ResetDash, s.DashCooldown) } := rfl

omit [LinearOrderedField K] in
theorem ResetDash_cleared (s : Character K) :
    ResetDash { s with UnusedHandle := none } =
      { s with UnusedHandle := none, CanDash := true } := rfl

/-- Two units of fuel are always enough: more fuel gives the same result. -/
theorem advanceTimersFuel_stable (n : Nat) (dt : K) (s : Character K) :
    advanceTimersFuel (n + 2) dt s = advanceTimersFuel 2 dt s := by
  rcases hh : s.UnusedHandle with _ | ⟨cb, r⟩
  · rw [advanceTimersFuel_none _ _ _ hh, advanceTimersFuel_none _ _ _ hh]
  · by_cases hlt : dt < r
    · rw [advanceTimersFuel_lt _ _ _ _ _ hh hlt, advanceTimersFuel_lt _ _ _ _ _ hh hlt]
    · have hge : r ≤ dt := not_lt.mp hlt
      rw [advanceTimersFuel_ge _ _ _ _ _ hh hge, advanceTimersFuel_ge _ _ _ _ _ hh hge]
      cases cb with
      | ResetDash =>
        rw [advanceTimersFuel_none _ _ _ rfl, advanceTimersFuel_none _ _ _ rfl]
      | StopDash =>
        show advanceTimersFuel (n + 1) _ (StopDash _) = advanceTimersFuel 1 _ (StopDash _)
        rw [StopDash_cleared]
        by_cases hlt2 : dt - r < s.DashCooldown
        · rw [advanceTimersFuel_lt _ _ _ _ _ rfl hlt2, advanceTimersFuel_lt _ _ _ _ _ rfl hlt2]
        · have hge2 : s.DashCooldown ≤ dt - r := not_lt.mp hlt2
          rw [advanceTimersFuel_ge _ _ _ _ _ rfl hge2, advanceTimersFuel_ge _ _ _ _ _ rfl hge2,
            advanceTimersFuel_none _ _ _ rfl, advanceTimersFuel_none _ _ _ rfl]

theorem advanceTimers_none (dt : K) (s : Character K) (h : s.UnusedHandle = none) :
    advanceTimers dt s = s :=
  advanceTimersFuel_none 2 dt s h

theorem advanceTimers_lt (dt : K) (s : Character K) (cb : TimerCallback) (r : K)
    (h : s.UnusedHandle = some (cb, r)) (hlt : dt < r) :
    advanceTimers dt s = { s with UnusedHandle := some (cb, r - dt) } :=
  advanceTimersFuel_lt 1 dt s cb r h hlt

theorem advanceTimers_reset (dt : K) (s : Character K) (r : K)
    (h : s.UnusedHandle = some (TimerCallback.ResetDash, r)) (hge : r ≤ dt) :
    advanceTimers dt s = { s with UnusedHandle := none, CanDash := true } := by
  unfold advanceTimers
  rw [advanceTimersFuel_ge _ _ _ _ _ h hge, advanceTimersFuel_none _ _ _ rfl]
  rfl

theorem advanceTimers_stop_lt (dt : K) (s : Character K) (r : K)
    (h : s.UnusedHandle = some (TimerCallback.StopDash, r)) (hge : r ≤ dt)
    (hlt : dt - r < s.DashCooldown) :
    advanceTimers dt s =
      { s with
        Velocity := 0
        BrakingFrictionFactor := 2
        UnusedHandle := some (TimerCallback.ResetDash, s.DashCooldown - (dt - r)) } := by
  unfold advanceTimers
  rw [advanceTimersFuel_ge _ _ _ _ _ h hge]
  show advanceTimersFuel 1 _ (StopDash _) = _
  rw [StopDash_cleared, advanceTimersFuel_lt _ _ _ _ _ rfl hlt]

theorem advanceTimers_stop_ge (dt : K) (s : Character K) (r : K)
    (h : s.UnusedHandle = some (TimerCallback.StopDash, r)) (hge : r ≤ dt)
    (hge2 : s.DashCooldown ≤ dt - r) :
    advanceTimers dt s =
      { s with
        Velocity := 0
        BrakingFrictionFactor := 2
        UnusedHandle := none
        CanDash := true } := by
  unfold advanceTimers
  rw [advanceTimersFuel_ge _ _ _ _ _ h hge]
  show advanceTimersFuel 1 _ (StopDash _) = _
  rw [StopDash_cleared, advanceTimersFuel_ge _ _ _ _ _ rfl hge2, advanceTimersFuel_none _ _ _ rfl]
  rfl

theorem Dash_of_not_ready (E : Engine K) (d : DashAction) (W : World K) (s : Character K)
    (h : s.CanDash = false) : Dash E d W s = s := by
  cases d <;> simp [Dash, DashForward, DashLeft, DashRight, DashBack, h]

theorem DashInvariant_of_SameDash (s t : Character K) (hst : SameDash s t)
    (hs : DashInvariant s) : DashInvariant t := by
  obtain ⟨e1, e2, e3, e4, e5⟩ := hst
  unfold DashInvariant
  rw [e1, e2, e3, e4, e5]
  exact hs

theorem SameDash_MultipleJump (s : Character K) : SameDash s (MultipleJump s) := by
  unfold MultipleJump LaunchCharacter SameDash
  split <;> simp

theorem SameDash_OnGrapple (E : Engine K) (W : World K) (s : Character K) :
    SameDash s (OnGrapple E W s) := by
  cases hc : s.GrappleConnected
  · cases ht : grappleTrace E W s with
    | none =>
      rw [OnGrapple_of_miss E W s hc ht]
      exact ⟨rfl, rfl, rfl, rfl, rfl⟩
    | some P =>
      rw [OnGrapple_of_hit E W s P hc ht]
      exact ⟨rfl, rfl, rfl, rfl, rfl⟩
  · rw [OnGrapple_of_connected E W s hc]
    exact ⟨rfl, rfl, rfl, rfl, rfl⟩

theorem SameDash_Tick (dt : K) (s : Character K) : SameDash s (Tick dt s) := by
  unfold Tick SameDash
  split <;> simp

theorem DashInvariant_Dash (E : Engine K) (d : DashAction) (W : World K) (s : Character K)
    (hs : DashInvariant s) : DashInvariant (Dash E d W s) := by
  cases hcan : s.CanDash
  · rw [Dash_of_not_ready E d W s hcan]
    exact hs
  · obtain ⟨v, hv⟩ := Dash_of_ready E d W s hcan
    obtain ⟨i1, i2, _, i4, i5⟩ := hs
    have hnone : s.UnusedHandle = none := by
      cases hh : s.UnusedHandle with
      | none => rfl
      | some p =>
        have : s.CanDash = false := i1.mpr (by rw [hh]; rfl)
        rw [hcan] at this
        exact absurd this (by decide)
    rw [hv, dashed_eq]
    refine ⟨?_, ?_, ?_, i4, i5⟩
    · exact ⟨fun _ => rfl, fun _ => rfl⟩
    · show (match s.UnusedHandle with
        | some (old, _) => old :: s.Discarded
        | none => s.Discarded) = []
      rw [hnone]
      exact i2
    · intro cb r hcr
      have : (TimerCallback.StopDash, s.DashStop) = (cb, r) := Option.some.inj hcr
      rw [← (Prod.mk.inj this).2]
      exact i4

theorem DashInvariant_advanceTimers (dt : K) (s : Character K)
    (hs : DashInvariant s) : DashInvariant (advanceTimers dt s) := by
  obtain ⟨i1, i2, i3, i4, i5⟩ := hs
  rcases hh : s.UnusedHandle with _ | ⟨cb, r⟩
  · rw [advanceTimers_none dt s hh]
    exact ⟨i1, i2, i3, i4, i5⟩
  · have hfalse : s.CanDash = false := i1.mpr (by rw [hh]; rfl)
    by_cases hlt : dt < r
    · rw [advanceTimers_lt dt s cb r hh hlt]
      refine ⟨⟨fun _ => rfl, fun _ => hfalse⟩, i2, ?_, i4, i5⟩
      intro cb2 r2 h2
      have : (cb, r - dt) = (cb2, r2) := Option.some.inj h2
      rw [← (Prod.mk.inj this).2]
      exact sub_pos.mpr hlt
    · have hge : r ≤ dt := not_lt.mp hlt
      cases cb with
      | ResetDash =>
        rw [advanceTimers_reset dt s r hh hge]
        refine ⟨⟨fun h => by simp at h, fun h => by simp at h⟩, i2, ?_, i4, i5⟩
        intro cb2 r2 h2
        exact absurd h2 (by simp)
      | StopDash =>
        by_cases hlt2 : dt - r < s.DashCooldown
        · rw [advanceTimers_stop_lt dt s r hh hge hlt2]
          refine ⟨⟨fun _ => rfl, fun _ => hfalse⟩, i2, ?_, i4, i5⟩
          intro cb2 r2 h2
          have : (TimerCallback.ResetDash, s.DashCooldown - (dt - r)) = (cb2, r2) :=
            Option.some.inj h2
          rw [← (Prod.mk.inj this).2]
          exact sub_pos.mpr hlt2
        · rw [advanceTimers_stop_ge dt s r hh hge (not_lt.mp hlt2)]
          refine ⟨⟨fun h => by simp at h, fun h => by simp at h⟩, i2, ?_, i4, i5⟩
          intro cb2 r2 h2
          exact absurd h2 (by simp)

theorem DashInvariant_step (E : Engine K) (s : Character K) (ev : Event K)
    (hs : DashInvariant s) : DashInvariant (step E s ev) := by
  cases ev with
  | Jump => exact DashInvariant_of_SameDash s _ (SameDash_MultipleJump s) hs
  | Landed => exact DashInvariant_of_SameDash s _ ⟨rfl, rfl, rfl, rfl, rfl⟩ hs
  | Sprint => exact DashInvariant_of_SameDash s _ ⟨rfl, rfl, rfl, rfl, rfl⟩ hs
  | Walk => exact DashInvariant_of_SameDash s _ ⟨rfl, rfl, rfl, rfl, rfl⟩ hs
  | ShootGrapple W => exact DashInvariant_of_SameDash s _ (SameDash_OnGrapple E W s) hs
  | Dash d W => exact DashInvariant_Dash E d W s hs
  | Tick dt => exact DashInvariant_of_SameDash s _ (SameDash_Tick dt s) hs
  | AdvanceTimers dt => exact DashInvariant_advanceTimers dt s hs

theorem DashInvariant_run (E : Engine K) (evs : List (Event K)) :
    ∀ s : Character K, DashInvariant s → DashInvariant (run E s evs) := by
  induction evs with
  | nil => intro s hs; exact hs
  | cons ev rest ih =>
    intro s hs
    exact ih (step E s ev) (DashInvariant_step E s ev hs)

theorem DashInvariant_ready_again (s : Character K) (hs : DashInvariant s) :
    ∃ dt : K, 0 ≤ dt ∧ (advanceTimers dt s).CanDash = true := by
  obtain ⟨i1, _, i3, _, i5⟩ := hs
  rcases hh : s.UnusedHandle with _ | ⟨cb, r⟩
  · refine ⟨0, le_refl _, ?_⟩
    rw [advanceTimers_none 0 s hh]
    cases hcan : s.CanDash
    · have := i1.mp hcan
      rw [hh] at this
      simp at this
    · rfl
  · have hr : 0 < r := i3 cb r hh
    cases cb with
    | ResetDash =>
      refine ⟨r, le_of_lt hr, ?_⟩
      rw [advanceTimers_reset r s r hh (le_refl _)]
    | StopDash =>
      refine ⟨r + s.DashCooldown, le_of_lt (add_pos hr i5), ?_⟩
      rw [advanceTimers_stop_ge (r + s.DashCooldown) s r hh
        (le_add_of_nonneg_right (le_of_lt i5)) (by rw [add_sub_cancel_left])]

end Facts

/-! ## Claims -/

section Claims

variable {K : Type} [LinearOrderedField K]

/-- C1: with `JumpLimit = L ≥ 1` and `JumpCounter = 0`, the first `L`
consecutive `MultipleJump` calls each launch the character upwards and count
up to `L`; one more call changes nothing; `Landed` resets the counter to 0
and the next `MultipleJump` launches again and sets it to 1.  The bounds
`0 ≤ JumpCounter ≤ JumpLimit` are preserved by `MultipleJump` and `Landed`. -/
theorem C1_jump_budget (L : Nat) (hL : 1 ≤ L) (s : Character K)
    (hlim : s.JumpLimit = L) (h0 : s.JumpCounter = 0) :
    (∀ k : Nat, k ≤ L → (MultipleJump^[k] s).JumpCounter = k) ∧
    (∀ k : Nat, k < L →
      (MultipleJump^[k + 1] s).Launches =
        ⟨⟨0, 0, s.JumpHeight⟩, false, true⟩ :: (MultipleJump^[k] s).Launches) ∧
    MultipleJump (MultipleJump^[L] s) = MultipleJump^[L] s ∧
    (Landed (MultipleJump^[L] s)).JumpCounter = 0 ∧
    (MultipleJump (Landed (MultipleJump^[L] s))).JumpCounter = 1 ∧
    (MultipleJump (Landed (MultipleJump^[L] s))).Launches =
      ⟨⟨0, 0, s.JumpHeight⟩, false, true⟩ :: (Landed (MultipleJump^[L] s)).Launches ∧
    (∀ t : Character K, JumpInvariant t →
      JumpInvariant (MultipleJump t) ∧ JumpInvariant (Landed t)) := by
  have hiter := iterate_MultipleJump s h0
  have hLL : ((L : Nat) : Int) ≤ s.JumpLimit := by rw [hlim]
  obtain ⟨hcL, hlL, hhL⟩ := hiter L hLL
  have hland : (Landed (MultipleJump^[L] s)).JumpCounter
      < (Landed (MultipleJump^[L] s)).JumpLimit := by
    show (0 : Int) < (MultipleJump^[L] s).JumpLimit
    rw [hlL, hlim]
    exact_mod_cast hL
  refine ⟨?_, ?_, ?_, rfl, ?_, ?_, ?_⟩
  · intro k hk
    exact (hiter k (by rw [hlim]; exact_mod_cast hk)).1
  · intro k hk
    obtain ⟨hc, hl, hh⟩ := hiter k (by rw [hlim]; exact_mod_cast (le_of_lt hk))
    rw [Function.iterate_succ_apply',
      MultipleJump_of_lt _ (by rw [hc, hl, hlim]; exact_mod_cast hk), hh]
  · exact MultipleJump_of_not_lt _ (by rw [hcL, hlL, hlim]; exact lt_irrefl _)
  · rw [MultipleJump_of_lt _ hland]
    rfl
  · rw [MultipleJump_of_lt _ hland]
    show _ = _ :: (MultipleJump^[L] s).Launches
    simp only [Landed, hhL]
  · intro t ht
    obtain ⟨ht0, ht1⟩ := ht
    refine ⟨?_, ?_⟩
    · by_cases hlt : t.JumpCounter < t.JumpLimit
      · rw [MultipleJump_of_lt _ hlt]
        constructor
        · show (0 : Int) ≤ t.JumpCounter + 1
          omega
        · show t.JumpCounter + 1 ≤ t.JumpLimit
          omega
      · rw [MultipleJump_of_not_lt _ hlt]
        exact ⟨ht0, ht1⟩
    · constructor
      · show (0 : Int) ≤ 0
        exact le_refl _
      · show (0 : Int) ≤ t.JumpLimit
        omega

/-- Witness of C1 at `L = 2`: the counters after three jumps are 1, 2, 2 and
landing gives 0. -/
theorem C1_jump_budget_witness :
    (MultipleJump (AGameplayDemoCharacter 2 0 : Character ℚ)).JumpCounter = 1 ∧
    (MultipleJump^[2] (AGameplayDemoCharacter 2 0 : Character ℚ)).JumpCounter = 2 ∧
    MultipleJump (MultipleJump^[2] (AGameplayDemoCharacter 2 0 : Character ℚ)) =
      MultipleJump^[2] (AGameplayDemoCharacter 2 0 : Character ℚ) ∧
    (Landed (MultipleJump^[2] (AGameplayDemoCharacter 2 0 : Character ℚ))).JumpCounter = 0 :=
  have h := C1_jump_budget 2 (by decide) (AGameplayDemoCharacter 2 0 : Character ℚ) rfl rfl
  ⟨h.1 1 (by decide), h.1 2 (by decide), h.2.2.1, h.2.2.2.1⟩

/-- C3: while `CanDash` is false each of the four dash functions returns the
state it was given: flag, velocity, braking friction, launch record and the
pending timer are all untouched. -/
theorem C3_dash_not_ready_noop (E : Engine K) (W : World K) (s : Character K)
    (h : s.CanDash = false) :
    DashForward E W s = s ∧ DashLeft E W s = s ∧ DashRight E W s = s ∧ DashBack E W s = s ∧
    (∀ d : DashAction, Dash E d W s = s) := by
  have h1 : DashForward E W s = s := by simp [DashForward, h]
  have h2 : DashLeft E W s = s := by simp [DashLeft, h]
  have h3 : DashRight E W s = s := by simp [DashRight, h]
  have h4 : DashBack E W s = s := by simp [DashBack, h]
  refine ⟨h1, h2, h3, h4, ?_⟩
  intro d
  cases d
  · exact h1
  · exact h2
  · exact h3
  · exact h4

/-- Witness of C3: a second forward dash right after a first one changes
nothing. -/
theorem C3_dash_not_ready_noop_witness :
    (DashForward tableEngine (worldWith ⟨3, 4, 0⟩ none)
      (AGameplayDemoCharacter 2 0)).CanDash = false ∧
    DashForward tableEngine (worldWith ⟨0, 1, 0⟩ none)
        (DashForward tableEngine (worldWith ⟨3, 4, 0⟩ none) (AGameplayDemoCharacter 2 0)) =
      DashForward tableEngine (worldWith ⟨3, 4, 0⟩ none) (AGameplayDemoCharacter 2 0) :=
  ⟨rfl, (C3_dash_not_ready_noop tableEngine (worldWith ⟨0, 1, 0⟩ none)
    (DashForward tableEngine (worldWith ⟨3, 4, 0⟩ none) (AGameplayDemoCharacter 2 0)) rfl).1⟩

/-- C7: from a disconnected state, when the sphere trace hits at `P`,
`OnGrapple` sets `GrappleConnected` and stores
`FVector(CalculateGrappleForce(P, v, p)) + GetSafeNormal(f) * GrappleBoost`;
the solver returns zero on every input, so the stored force is the zero vector
plus the boost term, and it does not depend on `P`, `v` or `p`. -/
theorem C7_grapple_connect_force (E : Engine K) (W : World K) (s : Character K) (P : FVector K)
    (hc : s.GrappleConnected = false) (hhit : grappleTrace E W s = some P) :
    (OnGrapple E W s).GrappleConnected = true ∧
    (OnGrapple E W s).GrappleForce =
      FVector.ofScalar (CalculateGrappleForce E P s.Velocity W.ActorLocation)
        + FVector.GetSafeNormal E W.CameraForward * s.GrappleBoost ∧
    (∀ hookPoint velocity currentLocation : FVector K,
      CalculateGrappleForce E hookPoint velocity currentLocation = 0) ∧
    (OnGrapple E W s).GrappleForce = FVector.GetSafeNormal E W.CameraForward * s.GrappleBoost ∧
    (∀ (W2 : World K) (s2 : Character K) (P2 : FVector K),
      s2.GrappleConnected = false → grappleTrace E W2 s2 = some P2 →
      W2.CameraForward = W.CameraForward → s2.GrappleBoost = s.GrappleBoost →
      (OnGrapple E W2 s2).GrappleForce = (OnGrapple E W s).GrappleForce) := by
  have key : ∀ (W1 : World K) (s1 : Character K) (P1 : FVector K),
      s1.GrappleConnected = false → grappleTrace E W1 s1 = some P1 →
      (OnGrapple E W1 s1).GrappleForce =
        FVector.GetSafeNormal E W1.CameraForward * s1.GrappleBoost := by
    intro W1 s1 P1 h1 h2
    rw [OnGrapple_of_hit E W1 s1 P1 h1 h2]
    simp [CalculateGrappleForce_eq_zero, FVector.ofScalar, FVector.add_eq, FVector.mul_scalar_eq]
  refine ⟨?_, ?_, fun _ _ _ => rfl, key W s P hc hhit, ?_⟩
  · rw [OnGrapple_of_hit E W s P hc hhit]
  · rw [OnGrapple_of_hit E W s P hc hhit]
  · intro W2 s2 P2 h1 h2 hf hb
    rw [key W2 s2 P2 h1 h2, key W s P hc hhit, hf, hb]

/-- Witness of C7: connecting with the camera along the X axis stores the
force `(1000, 0, 0)`. -/
theorem C7_grapple_connect_force_witness :
    (OnGrapple tableEngine (worldWith ⟨1, 0, 0⟩ (some ⟨50, 0, 0⟩))
      (AGameplayDemoCharacter 2 0)).GrappleForce =
    FVector.GetSafeNormal tableEngine ⟨1, 0, 0⟩ * (1000 : ℚ) :=
  (C7_grapple_connect_force tableEngine (worldWith ⟨1, 0, 0⟩ (some ⟨50, 0, 0⟩))
    (AGameplayDemoCharacter 2 0) ⟨50, 0, 0⟩ rfl rfl).2.2.2.1

/-- C8: `Tick` adds `GrappleForce` to the velocity when `GrappleConnected`
is true and returns the state unchanged when it is false; no other field
changes.  After any number of consecutive ticks while connected the velocity
is the initial velocity plus that number times the same `GrappleForce`. -/
theorem C8_tick_thrust (s : Character K) :
    (s.GrappleConnected = true →
      (∀ dt : K, Tick dt s = { s with Velocity := s.Velocity + s.GrappleForce }) ∧
      (∀ dts : List K, dts.foldl (fun t dt => Tick dt t) s =
        { s with Velocity := s.Velocity + (dts.length : K) * s.GrappleForce })) ∧
    (s.GrappleConnected = false → ∀ dt : K, Tick dt s = s) :=
  ⟨fun h => ⟨fun dt => Tick_of_connected dt s h, fun dts => foldl_Tick_of_connected dts s h⟩,
   fun h dt => Tick_of_not_connected dt s h⟩

/-- C9: from a disconnected state, when the sphere trace reports no hit,
`OnGrapple` returns the state unchanged; repeating the call any number of
times, with worlds whose traces all miss, still returns the same state, so
`GrappleConnected` stays false. -/
theorem C9_grapple_miss (E : Engine K) (s : Character K) (hc : s.GrappleConnected = false) :
    (∀ W : World K, grappleTrace E W s = none → OnGrapple E W s = s) ∧
    (∀ Ws : List (World K), (∀ W ∈ Ws, grappleTrace E W s = none) →
      Ws.foldl (fun t W => OnGrapple E W t) s = s ∧
      (Ws.foldl (fun t W => OnGrapple E W t) s).GrappleConnected = false) := by
  refine ⟨fun W hm => OnGrapple_of_miss E W s hc hm, ?_⟩
  intro Ws hm
  rw [foldl_OnGrapple_of_miss E Ws s hc hm]
  exact ⟨rfl, hc⟩

/-- Witness of C9: a missed toggle on the freshly constructed character. -/
theorem C9_grapple_miss_witness :
    OnGrapple tableEngine (worldWith ⟨1, 0, 0⟩ none) (AGameplayDemoCharacter 2 0) =
      AGameplayDemoCharacter 2 0 :=
  (C9_grapple_miss tableEngine (AGameplayDemoCharacter 2 0) rfl).1
    (worldWith ⟨1, 0, 0⟩ none) rfl

/-- C6 (as amended): with `CanDash` true and exact sines and cosines, the
forward dash launches `GetSafeNormal((f.x, f.y, 0)) * DashDistance`; the left
and right dashes launch that vector rotated by -90 and +90 degrees about Z, the
back dash its negation, which is its rotation by 180 degrees.  Every launch
has zero Z component and all four have the same squared length.  That squared
length is `DashDistance` squared when the horizontal part of `f` has squared
length one, or at least the tolerance with an exact inverse square root; it is
zero, as is the launch itself, when the horizontal part is below the
tolerance. -/
theorem C6_dash_directions (E : Engine K) (W : World K) (s : Character K)
    (hcan : s.CanDash = true) (ht : E.ExactTrig) :
    (DashForward E W s).Launches = ⟨forwardLaunch E W s, true, true⟩ :: s.Launches ∧
    (DashLeft E W s).Launches =
      ⟨FVector.RotateAngleAxis E (-90) ⟨0, 0, 1⟩ (forwardLaunch E W s), true, true⟩
        :: s.Launches ∧
    (DashRight E W s).Launches =
      ⟨FVector.RotateAngleAxis E 90 ⟨0, 0, 1⟩ (forwardLaunch E W s), true, true⟩
        :: s.Launches ∧
    (DashBack E W s).Launches = ⟨-forwardLaunch E W s, true, true⟩ :: s.Launches ∧
    -forwardLaunch E W s = FVector.RotateAngleAxis E 180 ⟨0, 0, 1⟩ (forwardLaunch E W s) ∧
    ((forwardLaunch E W s).Z = 0 ∧
      (FVector.RotateAngleAxis E (-90) ⟨0, 0, 1⟩ (forwardLaunch E W s)).Z = 0 ∧
      (FVector.RotateAngleAxis E 90 ⟨0, 0, 1⟩ (forwardLaunch E W s)).Z = 0 ∧
      (-forwardLaunch E W s).Z = 0) ∧
    ((FVector.RotateAngleAxis E (-90) ⟨0, 0, 1⟩ (forwardLaunch E W s)).SizeSquared
        = (forwardLaunch E W s).SizeSquared ∧
      (FVector.RotateAngleAxis E 90 ⟨0, 0, 1⟩ (forwardLaunch E W s)).SizeSquared
        = (forwardLaunch E W s).SizeSquared ∧
      (-forwardLaunch E W s).SizeSquared = (forwardLaunch E W s).SizeSquared) ∧
    (((horizontalForward W).SizeSquared = 1 ∨
        (E.SMALL_NUMBER ≤ (horizontalForward W).SizeSquared ∧
          E.ExactInvSqrtAt (horizontalForward W).SizeSquared)) →
      (forwardLaunch E W s).SizeSquared = s.DashDistance * s.DashDistance) ∧
    ((horizontalForward W).SizeSquared ≠ 1 →
      (horizontalForward W).SizeSquared < E.SMALL_NUMBER →
      forwardLaunch E W s = 0 ∧ (forwardLaunch E W s).SizeSquared = 0) := by
  have hF := forwardLaunch_eq E W s
  have hL : FVector.RotateAngleAxis E (-90) ⟨0, 0, 1⟩ (forwardLaunch E W s) =
      ⟨(FVector.GetSafeNormal E (horizontalForward W)).Y * s.DashDistance,
       -((FVector.GetSafeNormal E (horizontalForward W)).X * s.DashDistance), 0⟩ := by
    rw [hF, RotateAngleAxis_Z, ht.2.1]
    ext <;> simp
  have hR : FVector.RotateAngleAxis E 90 ⟨0, 0, 1⟩ (forwardLaunch E W s) =
      ⟨-((FVector.GetSafeNormal E (horizontalForward W)).Y * s.DashDistance),
       (FVector.GetSafeNormal E (horizontalForward W)).X * s.DashDistance, 0⟩ := by
    rw [hF, RotateAngleAxis_Z, ht.1]
    ext <;> simp
  have hB : FVector.RotateAngleAxis E 180 ⟨0, 0, 1⟩ (forwardLaunch E W s) =
      ⟨-((FVector.GetSafeNormal E (horizontalForward W)).X * s.DashDistance),
       -((FVector.GetSafeNormal E (horizontalForward W)).Y * s.DashDistance), 0⟩ := by
    rw [hF, RotateAngleAxis_Z, ht.2.2]
    ext <;> simp
  have hN : -forwardLaunch E W s =
      ⟨-((FVector.GetSafeNormal E (horizontalForward W)).X * s.DashDistance),
       -((FVector.GetSafeNormal E (horizontalForward W)).Y * s.DashDistance), 0⟩ := by
    rw [hF, FVector.neg_eq]
    ext <;> simp
  refine ⟨?_, ?_, ?_, ?_, ?_, ⟨?_, ?_, ?_, ?_⟩, ⟨?_, ?_, ?_⟩, ?_, ?_⟩
  · rw [DashForward_of_ready E W s hcan, SetTimer_Launches]
    rfl
  · rw [DashLeft_of_ready E W s hcan, SetTimer_Launches, hL, left_direction E W ht]
    simp [FVector.mul_scalar_eq]
  · rw [DashRight_of_ready E W s hcan, SetTimer_Launches, hR, right_direction E W ht]
    simp [FVector.mul_scalar_eq]
  · rw [DashBack_of_ready E W s hcan, SetTimer_Launches, hN, back_direction E W ht]
    simp [FVector.mul_scalar_eq]
  · rw [hN, hB]
  · rw [hF]
  · rw [hL]
  · rw [hR]
  · rw [hN]
  · rw [hL, hF]
    simp only [FVector.SizeSquared]
    ring
  · rw [hR, hF]
    simp only [FVector.SizeSquared]
    ring
  · rw [hN, hF]
    simp only [FVector.SizeSquared]
    ring
  · intro hex
    have h1 := GetSafeNormal_sizeSquared_of_exact E (horizontalForward W) hex
    have h2 : (forwardLaunch E W s).SizeSquared =
        (FVector.GetSafeNormal E (horizontalForward W)).SizeSquared
          * (s.DashDistance * s.DashDistance) := by
      unfold forwardLaunch
      simp only [FVector.SizeSquared, FVector.mul_scalar_eq]
      ring
    rw [h2, h1, one_mul]
  · intro h1 h2
    have h0 : forwardLaunch E W s = 0 := by
      unfold forwardLaunch
      rw [GetSafeNormal_of_small E _ h1 h2]
      simp [FVector.mul_scalar_eq, FVector.zero_eq]
    refine ⟨h0, ?_⟩
    rw [h0]
    simp [FVector.SizeSquared, FVector.zero_eq]

/-- Witness of C6: with the camera along `(3, 4, 7)` and `DashDistance = 6000`
the forward and left dashes launch `(3600, 4800, 0)` and `(4800, -3600, 0)`. -/
theorem C6_dash_directions_witness :
    (DashForward tableEngine (worldWith ⟨3, 4, 7⟩ none) (AGameplayDemoCharacter 2 0)).Launches
      = [⟨⟨3600, 4800, 0⟩, true, true⟩] ∧
    (DashLeft tableEngine (worldWith ⟨3, 4, 7⟩ none) (AGameplayDemoCharacter 2 0)).Launches
      = [⟨⟨4800, -3600, 0⟩, true, true⟩] ∧
    (forwardLaunch tableEngine (worldWith ⟨3, 4, 7⟩ none)
      (AGameplayDemoCharacter 2 0)).SizeSquared = 6000 * 6000 := by
  have ht : tableEngine.ExactTrig := by
    unfold Engine.ExactTrig tableEngine
    norm_num
  have hfl : forwardLaunch tableEngine (worldWith ⟨3, 4, 7⟩ none) (AGameplayDemoCharacter 2 0)
      = ⟨3600, 4800, 0⟩ := by
    unfold forwardLaunch horizontalForward worldWith AGameplayDemoCharacter
      FVector.GetSafeNormal tableEngine
    norm_num [FVector.mul_scalar_eq]
  have h := C6_dash_directions tableEngine (worldWith ⟨3, 4, 7⟩ none)
    (AGameplayDemoCharacter 2 0) rfl ht
  refine ⟨?_, ?_, ?_⟩
  · rw [h.1, hfl]
    rfl
  · rw [h.2.1, hfl, RotateAngleAxis_Z]
    have : (AGameplayDemoCharacter 2 0 : Character ℚ).Launches = [] := rfl
    rw [this]
    simp only [tableEngine]
    norm_num
  · rw [hfl]
    norm_num [FVector.SizeSquared]

/-- Counterexample to C6 as stated: with the camera looking straight up,
`f = (0, 0, 1)`, and `DashDistance = 6000`, the forward dash launches the zero
vector, whose length is not `DashDistance`. -/
theorem C6_counterexample :
    (AGameplayDemoCharacter 2 0 : Character ℚ).CanDash = true ∧
    (AGameplayDemoCharacter 2 0 : Character ℚ).DashDistance = 6000 ∧
    (DashForward tableEngine (worldWith ⟨0, 0, 1⟩ none) (AGameplayDemoCharacter 2 0)).Launches
      = [⟨⟨0, 0, 0⟩, true, true⟩] ∧
    ¬ ∃ m : ℚ, m * m = (⟨0, 0, 0⟩ : FVector ℚ).SizeSquared ∧
      m = (AGameplayDemoCharacter 2 0 : Character ℚ).DashDistance := by
  refine ⟨rfl, rfl, ?_, ?_⟩
  · rw [DashForward_of_ready _ _ _ rfl, SetTimer_Launches]
    simp only [horizontalForward, worldWith, AGameplayDemoCharacter,
      FVector.GetSafeNormal, tableEngine]
    norm_num [FVector.mul_scalar_eq, FVector.zero_eq]
    exact ⟨rfl, rfl, rfl⟩
  · rintro ⟨m, hm, hD⟩
    rw [hD] at hm
    simp only [AGameplayDemoCharacter, FVector.SizeSquared] at hm
    norm_num at hm

/-- Witness of C8: three ticks while connected with force `(1000, 0, 0)` take
the velocity from rest to `(3000, 0, 0)`. -/
theorem C8_tick_thrust_witness :
    ([1 / 60, 1 / 60, 1 / 30].foldl (fun t dt => Tick dt t)
      ({ (AGameplayDemoCharacter 2 0 : Character ℚ) with
          GrappleConnected := true, GrappleForce := ⟨1000, 0, 0⟩ })).Velocity
      = ⟨3000, 0, 0⟩ := by
  rw [((C8_tick_thrust ({ (AGameplayDemoCharacter 2 0 : Character ℚ) with
          GrappleConnected := true, GrappleForce := ⟨1000, 0, 0⟩ })).1 rfl).2]
  simp only [AGameplayDemoCharacter, FVector.zero_eq, FVector.add_eq, FVector.scalar_mul_eq,
    List.length_cons, List.length_nil]
  norm_num

/-- C4 (as amended): from a connected state `OnGrapple` sets `GrappleConnected`
to false and leaves `GrappleForce` as it was; the stored force is then no
longer applied, `Tick` returning the disconnected state unchanged.  From a
disconnected state with zero force, `GrappleForce` is still zero after any
sequence of `OnGrapple` calls whose traces all miss. -/
theorem C4_grapple_disconnect (E : Engine K) (W : World K) (s : Character K)
    (hc : s.GrappleConnected = true) :
    (OnGrapple E W s).GrappleConnected = false ∧
    (OnGrapple E W s).GrappleForce = s.GrappleForce ∧
    (∀ dt : K, Tick dt (OnGrapple E W s) = OnGrapple E W s) ∧
    (∀ (s0 : Character K) (Ws : List (World K)),
      s0.GrappleConnected = false → s0.GrappleForce = 0 →
      (∀ W0 ∈ Ws, grappleTrace E W0 s0 = none) →
      (Ws.foldl (fun t W0 => OnGrapple E W0 t) s0).GrappleConnected = false ∧
      (Ws.foldl (fun t W0 => OnGrapple E W0 t) s0).GrappleForce = 0) := by
  have h := OnGrapple_of_connected E W s hc
  refine ⟨?_, ?_, ?_, ?_⟩
  · rw [h]
  · rw [h]
  · intro dt
    exact Tick_of_not_connected dt _ (by rw [h])
  · intro s0 Ws h0 hf hm
    rw [foldl_OnGrapple_of_miss E Ws s0 h0 hm]
    exact ⟨h0, hf⟩

/-- Witness of C4 (as amended): disconnecting a grapple that stores the force
`(1000, 0, 0)` keeps that force. -/
theorem C4_grapple_disconnect_witness :
    (OnGrapple tableEngine (worldWith ⟨1, 0, 0⟩ none)
      ({ (AGameplayDemoCharacter 2 0 : Character ℚ) with
          GrappleConnected := true, GrappleForce := ⟨1000, 0, 0⟩ })).GrappleForce
      = ⟨1000, 0, 0⟩ :=
  (C4_grapple_disconnect tableEngine (worldWith ⟨1, 0, 0⟩ none)
    ({ (AGameplayDemoCharacter 2 0 : Character ℚ) with
        GrappleConnected := true, GrappleForce := ⟨1000, 0, 0⟩ }) rfl).2.1

/-- Counterexample to C4 as stated: from the constructed character, a toggle
that hits followed by a second toggle reaches a disconnected state whose
`GrappleForce` is `(1000, 0, 0)`, not the zero vector. -/
theorem C4_counterexample :
    (AGameplayDemoCharacter 2 0 : Character ℚ).GrappleConnected = false ∧
    (AGameplayDemoCharacter 2 0 : Character ℚ).GrappleForce = 0 ∧
    (OnGrapple tableEngine (worldWith ⟨1, 0, 0⟩ (some ⟨50, 0, 0⟩))
      (AGameplayDemoCharacter 2 0)).GrappleConnected = true ∧
    (OnGrapple tableEngine (worldWith ⟨1, 0, 0⟩ none)
      (OnGrapple tableEngine (worldWith ⟨1, 0, 0⟩ (some ⟨50, 0, 0⟩))
        (AGameplayDemoCharacter 2 0))).GrappleConnected = false ∧
    (OnGrapple tableEngine (worldWith ⟨1, 0, 0⟩ none)
      (OnGrapple tableEngine (worldWith ⟨1, 0, 0⟩ (some ⟨50, 0, 0⟩))
        (AGameplayDemoCharacter 2 0))).GrappleForce = ⟨1000, 0, 0⟩ ∧
    (OnGrapple tableEngine (worldWith ⟨1, 0, 0⟩ none)
      (OnGrapple tableEngine (worldWith ⟨1, 0, 0⟩ (some ⟨50, 0, 0⟩))
        (AGameplayDemoCharacter 2 0))).GrappleForce ≠ 0 := by
  have h1 := OnGrapple_of_hit tableEngine (worldWith ⟨1, 0, 0⟩ (some ⟨50, 0, 0⟩))
    (AGameplayDemoCharacter 2 0) ⟨50, 0, 0⟩ rfl rfl
  have h2 := OnGrapple_of_connected tableEngine (worldWith ⟨1, 0, 0⟩ none)
    (OnGrapple tableEngine (worldWith ⟨1, 0, 0⟩ (some ⟨50, 0, 0⟩)) (AGameplayDemoCharacter 2 0))
    (by rw [h1])
  have hf : (OnGrapple tableEngine (worldWith ⟨1, 0, 0⟩ none)
      (OnGrapple tableEngine (worldWith ⟨1, 0, 0⟩ (some ⟨50, 0, 0⟩))
        (AGameplayDemoCharacter 2 0))).GrappleForce = ⟨1000, 0, 0⟩ := by
    rw [h2]
    show (OnGrapple tableEngine (worldWith ⟨1, 0, 0⟩ (some ⟨50, 0, 0⟩))
        (AGameplayDemoCharacter 2 0)).GrappleForce = _
    rw [h1]
    simp only [CalculateGrappleForce_eq_zero, FVector.ofScalar, FVector.add_eq,
      FVector.mul_scalar_eq, FVector.GetSafeNormal, worldWith, AGameplayDemoCharacter]
    norm_num
  refine ⟨rfl, rfl, ?_, ?_, hf, ?_⟩
  · rw [h1]
  · rw [h2]
  · rw [hf, FVector.zero_eq]
    intro h
    have hx := congrArg FVector.X h
    norm_num at hx

/-- C5 at the failing input: on the constructed character (cable hidden, not
connected) a toggle that hits connects the grapple and leaves the cable
hidden, and the following toggle disconnects it and makes the cable visible;
in general every `OnGrapple` call that changes `GrappleConnected` leaves the
hidden flag equal to the new value of `GrappleConnected`. -/
theorem C5_cable_hidden_when_connected :
    (AGameplayDemoCharacter 2 0 : Character ℚ).CableHiddenInGame = true ∧
    (OnGrapple tableEngine (worldWith ⟨1, 0, 0⟩ (some ⟨50, 0, 0⟩))
      (AGameplayDemoCharacter 2 0)).GrappleConnected = true ∧
    (OnGrapple tableEngine (worldWith ⟨1, 0, 0⟩ (some ⟨50, 0, 0⟩))
      (AGameplayDemoCharacter 2 0)).CableHiddenInGame = true ∧
    (OnGrapple tableEngine (worldWith ⟨1, 0, 0⟩ none)
      (OnGrapple tableEngine (worldWith ⟨1, 0, 0⟩ (some ⟨50, 0, 0⟩))
        (AGameplayDemoCharacter 2 0))).GrappleConnected = false ∧
    (OnGrapple tableEngine (worldWith ⟨1, 0, 0⟩ none)
      (OnGrapple tableEngine (worldWith ⟨1, 0, 0⟩ (some ⟨50, 0, 0⟩))
        (AGameplayDemoCharacter 2 0))).CableHiddenInGame = false ∧
    (∀ (E : Engine ℚ) (W : World ℚ) (s : Character ℚ),
      (OnGrapple E W s).GrappleConnected = s.GrappleConnected ∨
      (OnGrapple E W s).CableHiddenInGame = (OnGrapple E W s).GrappleConnected) := by
  have h1 := OnGrapple_of_hit tableEngine (worldWith ⟨1, 0, 0⟩ (some ⟨50, 0, 0⟩))
    (AGameplayDemoCharacter 2 0) ⟨50, 0, 0⟩ rfl rfl
  have h2 := OnGrapple_of_connected tableEngine (worldWith ⟨1, 0, 0⟩ none)
    (OnGrapple tableEngine (worldWith ⟨1, 0, 0⟩ (some ⟨50, 0, 0⟩)) (AGameplayDemoCharacter 2 0))
    (by rw [h1])
  refine ⟨rfl, ?_, ?_, ?_, ?_, ?_⟩
  · rw [h1]
  · rw [h1]
  · rw [h2]
  · rw [h2]
  · intro E W s
    cases hc : s.GrappleConnected
    · cases ht : grappleTrace E W s with
      | none =>
        left
        rw [OnGrapple_of_miss E W s hc ht, hc]
      | some P =>
        right
        rw [OnGrapple_of_hit E W s P hc ht]
    · right
      rw [OnGrapple_of_connected E W s hc]

/-- C2: a dash triggered at time 0 with `CanDash` true, `DashStop = a > 0` and
`DashCooldown = c > 0`, followed only by the passing of time: `CanDash` is
false at every time in `[0, a + c)` and true at `a + c`; from time 0 and
during `[0, a)` the braking friction factor is 0 and `StopDash` is pending; at time `a` the
velocity is zero, the braking friction factor is 2 (not zero), `ResetDash` is
armed for `c` and `CanDash` is still false; this lasts through `[a, a + c)`;
from `a + c` on `CanDash` is true and no timer is pending. -/
theorem C2_dash_cycle (E : Engine K) (d : DashAction) (W : World K) (s : Character K) (a c : K)
    (hcan : s.CanDash = true) (ha : s.DashStop = a) (hc : s.DashCooldown = c)
    (hapos : 0 < a) (hcpos : 0 < c) :
    (∀ t : K, 0 ≤ t → t < a + c → (advanceTimers t (Dash E d W s)).CanDash = false) ∧
    (advanceTimers (a + c) (Dash E d W s)).CanDash = true ∧
    ((advanceTimers 0 (Dash E d W s)).BrakingFrictionFactor = 0 ∧
      (advanceTimers 0 (Dash E d W s)).UnusedHandle = some (TimerCallback.StopDash, a)) ∧
    (∀ t : K, 0 ≤ t → t < a →
      (advanceTimers t (Dash E d W s)).BrakingFrictionFactor = 0 ∧
      (advanceTimers t (Dash E d W s)).UnusedHandle = some (TimerCallback.StopDash, a - t)) ∧
    ((advanceTimers a (Dash E d W s)).Velocity = 0 ∧
      (advanceTimers a (Dash E d W s)).BrakingFrictionFactor = 2 ∧
      (2 : K) ≠ 0 ∧
      (advanceTimers a (Dash E d W s)).UnusedHandle = some (TimerCallback.ResetDash, c) ∧
      (advanceTimers a (Dash E d W s)).CanDash = false) ∧
    (∀ t : K, a ≤ t → t < a + c →
      (advanceTimers t (Dash E d W s)).Velocity = 0 ∧
      (advanceTimers t (Dash E d W s)).BrakingFrictionFactor = 2 ∧
      (advanceTimers t (Dash E d W s)).UnusedHandle
        = some (TimerCallback.ResetDash, c - (t - a))) ∧
    (∀ t : K, a + c ≤ t →
      (advanceTimers t (Dash E d W s)).CanDash = true ∧
      (advanceTimers t (Dash E d W s)).UnusedHandle = none) := by
  obtain ⟨v, hv⟩ := Dash_of_ready E d W s hcan
  have hT : (Dash E d W s).UnusedHandle = some (TimerCallback.StopDash, a) := by
    rw [hv, dashed_eq, ha]
  have hC : (Dash E d W s).DashCooldown = c := by
    rw [hv, dashed_eq]
    exact hc
  have hF : (Dash E d W s).CanDash = false := by
    rw [hv, dashed_eq]
  have hB : (Dash E d W s).BrakingFrictionFactor = 0 := by
    rw [hv, dashed_eq]
  have hmid : ∀ t : K, a ≤ t → t < a + c →
      advanceTimers t (Dash E d W s) =
        { Dash E d W s with
          Velocity := 0
          BrakingFrictionFactor := 2
          UnusedHandle := some (TimerCallback.ResetDash, c - (t - a)) } := by
    intro t h1 h2
    rw [advanceTimers_stop_lt t _ a hT h1 (by rw [hC]; linarith)]
    simp only [hC]
  have hend : ∀ t : K, a + c ≤ t →
      advanceTimers t (Dash E d W s) =
        { Dash E d W s with
          Velocity := 0
          BrakingFrictionFactor := 2
          UnusedHandle := none
          CanDash := true } := by
    intro t h1
    rw [advanceTimers_stop_ge t _ a hT (by linarith) (by rw [hC]; linarith)]
  have hpre : ∀ t : K, t < a →
      advanceTimers t (Dash E d W s) =
        { Dash E d W s with UnusedHandle := some (TimerCallback.StopDash, a - t) } := by
    intro t h1
    rw [advanceTimers_lt t _ TimerCallback.StopDash a hT h1]
  refine ⟨?_, ?_, ?_, ?_, ?_, ?_, ?_⟩
  · intro t _ h2
    by_cases h : t < a
    · rw [hpre t h]
      exact hF
    · rw [hmid t (not_lt.mp h) h2]
      exact hF
  · rw [hend (a + c) (le_refl _)]
  · rw [hpre 0 hapos]
    refine ⟨hB, ?_⟩
    show some (TimerCallback.StopDash, a - 0) = _
    rw [sub_zero]
  · intro t _ h2
    rw [hpre t h2]
    exact ⟨hB, rfl⟩
  · rw [hmid a (le_refl _) (by linarith)]
    refine ⟨rfl, rfl, two_ne_zero, ?_, hF⟩
    show some (TimerCallback.ResetDash, c - (a - a)) = _
    rw [sub_self, sub_zero]
  · intro t h1 h2
    rw [hmid t h1 h2]
    exact ⟨rfl, rfl, rfl⟩
  · intro t h1
    rw [hend t h1]
    exact ⟨rfl, rfl⟩

/-- Witness of C2 with the constructor's delays `a = 0.1` and `c = 1.0`:
`CanDash` is false at `t = 0` and at `t = 1`, the stop has happened at
`t = 0.1`, and `CanDash` is true at `t = 1.1`. -/
theorem C2_dash_cycle_witness :
    (advanceTimers 0 (Dash tableEngine DashAction.ForwardDash (worldWith ⟨3, 4, 0⟩ none)
      (AGameplayDemoCharacter 2 0))).CanDash = false ∧
    (advanceTimers 1 (Dash tableEngine DashAction.ForwardDash (worldWith ⟨3, 4, 0⟩ none)
      (AGameplayDemoCharacter 2 0))).CanDash = false ∧
    (advanceTimers (1 / 10) (Dash tableEngine DashAction.ForwardDash
      (worldWith ⟨3, 4, 0⟩ none) (AGameplayDemoCharacter 2 0))).Velocity = 0 ∧
    (advanceTimers (1 / 10 + 1) (Dash tableEngine DashAction.ForwardDash
      (worldWith ⟨3, 4, 0⟩ none) (AGameplayDemoCharacter 2 0))).CanDash = true :=
  have h := C2_dash_cycle tableEngine DashAction.ForwardDash (worldWith ⟨3, 4, 0⟩ none)
    (AGameplayDemoCharacter 2 0) (1 / 10) 1 rfl rfl rfl (by norm_num) (by norm_num)
  ⟨h.1 0 (by norm_num) (by norm_num), h.1 1 (by norm_num) (by norm_num), h.2.2.2.2.1.1, h.2.1⟩

/-- C10: in every state reached from a state with `CanDash` true, no timer
pending and positive `DashStop` and `DashCooldown`, by any sequence of input
actions, landings, frame ticks and advances of the timer manager: `CanDash`
is false exactly when a callback is pending on the handle; no `SetTimer` call
has replaced a pending callback, and none does in the next event either; and
some advance of time makes `CanDash` true again. -/
theorem C10_dash_timer_invariant (E : Engine K) (s0 : Character K) (evs : List (Event K))
    (h1 : s0.CanDash = true) (h2 : s0.UnusedHandle = none) (h3 : s0.Discarded = [])
    (h4 : 0 < s0.DashStop) (h5 : 0 < s0.DashCooldown) :
    ((run E s0 evs).CanDash = false ↔
      ∃ cb r, (run E s0 evs).UnusedHandle = some (cb, r)) ∧
    (∀ cb r, (run E s0 evs).UnusedHandle = some (cb, r) → 0 < r) ∧
    (run E s0 evs).Discarded = [] ∧
    (∀ ev : Event K, (step E (run E s0 evs) ev).Discarded = []) ∧
    (∃ dt : K, 0 ≤ dt ∧ (advanceTimers dt (run E s0 evs)).CanDash = true) := by
  have hinit : DashInvariant s0 := by
    refine ⟨?_, h3, ?_, h4, h5⟩
    · rw [h1, h2]
      simp
    · intro cb r h
      rw [h2] at h
      simp at h
  have hinv := DashInvariant_run E evs s0 hinit
  have hnext := fun ev => DashInvariant_step E (run E s0 evs) ev hinv
  refine ⟨?_, hinv.2.2.1, hinv.2.1, fun ev => (hnext ev).2.1, DashInvariant_ready_again _ hinv⟩
  rw [hinv.1]
  constructor
  · intro h
    cases hh : (run E s0 evs).UnusedHandle with
    | none => rw [hh] at h; simp at h
    | some p => exact ⟨p.1, p.2, rfl⟩
  · rintro ⟨cb, r, h⟩
    rw [h]
    rfl

/-- Witness of C10: the constructed character, after a forward dash, a short
wait and a second dash attempt, has replaced no pending callback. -/
theorem C10_dash_timer_invariant_witness :
    (run tableEngine (AGameplayDemoCharacter 2 0)
      [Event.Dash DashAction.ForwardDash (worldWith ⟨3, 4, 0⟩ none),
       Event.AdvanceTimers (1 / 20),
       Event.Dash DashAction.LeftDash (worldWith ⟨3, 4, 0⟩ none)]).Discarded = [] :=
  (C10_dash_timer_invariant tableEngine (AGameplayDemoCharacter 2 0)
    [Event.Dash DashAction.ForwardDash (worldWith ⟨3, 4, 0⟩ none),
     Event.AdvanceTimers (1 / 20),
     Event.Dash DashAction.LeftDash (worldWith ⟨3, 4, 0⟩ none)]
    rfl rfl rfl (by norm_num [AGameplayDemoCharacter])
    (by norm_num [AGameplayDemoCharacter])).2.2.1

end Claims

end GameplayDemo
